import Mathlib

/-!
Verification of the livetxt core against its specification.

The Python sources are shallowly embedded:
* JSON-serializable Python values (dicts, lists, strings, ints, bools, None)
  become the inductive type `Json`; Python dicts with string keys become
  association lists `List (String × Json)` with insertion-order semantics.
* Pure functions become Lean functions; the module-level mutable stores of the
  shim (`_AGENT_STATES`, `_PATCHING_APPLIED`) become explicit state passing.
* The host framework (livekit-agents) is an external, uncontrolled dependency;
  its `ChatContext` is modelled at the boundary the code relies on: an ordered
  list of opaque chat-item records with `to_dict` / `from_dict` exporting and
  importing that list under the "items" key.
-/

namespace Livetxt

/-- A JSON value, the shallow embedding of the JSON-serializable Python values
this codebase passes around.  Numbers are modelled as integers (the states,
tool-call arguments and metadata handled by the code are produced by
`json`-style encoders; floating point is outside the embedding). -/
inductive Json where
  | null
  | bool (b : Bool)
  | num (n : Int)
  | str (s : String)
  | arr (items : List Json)
  | obj (fields : List (String × Json))
  deriving Repr, Inhabited

/-- Whether a JSON value is an object (a mapping), as opposed to a string,
array, number, boolean or null. -/
def Json.isObj : Json → Bool
  | .obj _ => true
  | _ => false

/-- Python truthiness of a JSON-like value: `None`, `False`, `0`, `""`, `[]`
and `{}` are falsy, everything else is truthy. -/
def Json.truthy : Json → Bool
  | .null => false
  | .bool b => b
  | .num n => n != 0
  | .str s => !s.isEmpty
  | .arr xs => !xs.isEmpty
  | .obj fs => !fs.isEmpty

/-- `d.get(k)` on a Python dict: first (only, for genuine dicts) binding of
`k`, or absent. -/
def dictGet (d : List (String × Json)) (k : String) : Option Json :=
  (d.find? (fun p => p.1 == k)).map Prod.snd

/-- `d[k] = v` on a Python dict: replace the value in place if the key is
present (keeping its position), otherwise append the new binding at the end
(insertion order). -/
def dictSet (d : List (String × Json)) (k : String) (v : Json) : List (String × Json) :=
  if d.any (fun p => p.1 == k) then
    d.map (fun p => if p.1 == k then (k, v) else p)
  else
    d ++ [(k, v)]

/-! ## Host framework boundary: ChatContext

Model of the external host framework's conversation-history object at the
interface this repository uses: an ordered list of chat-item records, exported
by `to_dict` under the `"items"` key and re-imported by `from_dict`.  The
binary-media exclusion flags passed by the code affect only image/audio
payloads, which never occur in the serialized item records this layer stores,
so they do not appear in the model. -/

structure ChatContext where
  items : List Json
  deriving Repr

/-- `ChatContext.empty()` of the host framework: no items. -/
def ChatContext.empty : ChatContext := ⟨[]⟩

/-- `chat_ctx.to_dict(...)`: export the items under the `"items"` key. -/
def ChatContext.to_dict (ctx : ChatContext) : List (String × Json) :=
  [("items", Json.arr ctx.items)]

/-- `ChatContext.from_dict(data)`: import the item list stored under
`"items"`. -/
def ChatContext.from_dict (data : List (String × Json)) : ChatContext :=
  ⟨match dictGet data "items" with
   | some (Json.arr xs) => xs
   | _ => []⟩

/-! ## src/livetxt/serialization.py -/

/-- `serialize_chat_context(chat_ctx)`: delegates to the host `to_dict` with
media excluded. -/
def serialize_chat_context (chat_ctx : ChatContext) : List (String × Json) :=
  chat_ctx.to_dict

/-- `deserialize_chat_context(data)`: `if not data or not data.get("items")`
return an empty context, otherwise delegate to the host `from_dict`. -/
def deserialize_chat_context (data : List (String × Json)) : ChatContext :=
  if data.isEmpty || !((dictGet data "items").getD Json.null).truthy then
    ChatContext.empty
  else
    ChatContext.from_dict data

/-! ## src/livetxt/models.py -/

/-- `SerializableSessionState`: the chat history as serialized item records
plus caller-owned metadata. -/
structure SerializableSessionState where
  chat_items : List Json
  metadata : List (String × Json)
  deriving Repr

/-- `SerializableSessionState.from_chat_context(chat_ctx, metadata)`: the
items of `chat_ctx.to_dict(...)` (defaulting to `[]`), and `metadata or {}`. -/
def SerializableSessionState.from_chat_context (chat_ctx : ChatContext)
    (metadata : Option (List (String × Json))) : SerializableSessionState :=
  { chat_items :=
      match dictGet chat_ctx.to_dict "items" with
      | some (Json.arr xs) => xs
      | _ => []
    metadata :=
      match metadata with
      | some m => if m.isEmpty then [] else m
      | none => [] }

/-- `SerializableSessionState.to_chat_context()`: an empty context for an
empty item list, otherwise the host `from_dict` of `{"items": chat_items}`. -/
def SerializableSessionState.to_chat_context (s : SerializableSessionState) : ChatContext :=
  if s.chat_items.isEmpty then ChatContext.empty
  else ChatContext.from_dict [("items", Json.arr s.chat_items)]

/-- C1: decoding the encoding of any valid SessionState yields a structurally
equal state: `from_chat_context (to_chat_context s) s.metadata = s` for every
state (chat items in order, and metadata), and the codec pair
`serialize_chat_context` / `deserialize_chat_context` round-trips every
ChatContext. -/
theorem C1_sessionstate_roundtrip :
    (∀ s : SerializableSessionState,
      SerializableSessionState.from_chat_context s.to_chat_context (some s.metadata) = s)
    ∧ (∀ ctx : ChatContext, deserialize_chat_context (serialize_chat_context ctx) = ctx) := by
  constructor
  · intro s
    obtain ⟨items, md⟩ := s
    cases items with
    | nil => cases md with
      | nil => rfl
      | cons p ps => rfl
    | cons x xs => cases md with
      | nil => rfl
      | cons p ps => rfl
  · intro ctx
    obtain ⟨items⟩ := ctx
    cases items with
    | nil => rfl
    | cons x xs => rfl

/-! ## src/livetxt/worker.py

`execute_job` is an async orchestrator.  Its embedding separates the
turn's nondeterministic interaction with agent code (what the awaited body
did: completed with some captured output and possibly a captured agent, raised
`asyncio.TimeoutError`, or raised another exception) from the deterministic
result construction, which is what the claims are about.  Wall-clock readings
(`time.time()`) enter as parameters.  Python's in-place mutation of the
request's state object is made explicit: the embedding returns both the
`JobResult` and the value of `request.state` as the caller observes it after
the call. -/

structure JobRequest where
  job_id : String
  user_input : String
  state : SerializableSessionState
  timeout_ms : Nat
  deriving Repr

inductive Status where
  | success
  | error
  | timeout
  deriving Repr, DecidableEq

structure JobResult where
  job_id : String
  status : Status
  response_text : Option String := none
  updated_state : Option SerializableSessionState := none
  error : Option String := none
  processing_time_ms : Option Nat := none
  metadata : List (String × Json) := []
  deriving Repr

/-- An exception escaping the awaited turn body, as classified by the
`except` clauses of `execute_job`: `asyncio.TimeoutError`, or any other
`Exception` with its type name and message. -/
inductive PyExn where
  | timeoutErr
  | exn (name : String) (msg : String)
  deriving Repr

/-- The agent instance captured by the AgentSession hooks, when any: its
`_chat_ctx`, and whether `SerializableSessionState.from_chat_context` raises
on it (the inner `try`/`except` of the state-extraction step, a host-framework
possibility). -/
structure CapturedAgent where
  chat_ctx : ChatContext
  extract_raises : Bool
  deriving Repr

/-- What the awaited turn body did: completed leaving `buffer` in the output
buffer (after steps 1-5) with an optionally captured agent, or raised. -/
inductive TurnOutcome where
  | ok (buffer : List String) (captured : Option CapturedAgent)
  | raised (e : PyExn)
  deriving Repr

/-- `TextOnlyRoom._capture_agent_output`: append the UTF-8-decoded publish
payload to the turn's output buffer.  Payloads are modelled by their decoded
text (UTF-8 encode/decode round-trips on the agent's strings). -/
def capture_agent_output (buffer : List String) (message : String) : List String :=
  buffer ++ [message]

/-- The output buffer produced by a sequence of `publish_data` calls, each
intercepted by `_capture_agent_output`, starting from the empty buffer. -/
def bufferOfPublishes (publishes : List String) : List String :=
  publishes.foldl capture_agent_output []

/-- Python `repr` of the `timeout_ms` optional argument as interpolated into
the timeout error message. -/
def pyShowOptNat : Option Nat → String
  | some n => toString n
  | none => "None"

/-- The `"last_turn"` metadata record written in the fallback state path. -/
def lastTurnRecord (user_input : String) (response_text : Option String)
    (timestamp : Int) : Json :=
  .obj [("user_input", .str user_input),
        ("agent_response", match response_text with | some t => .str t | none => .null),
        ("timestamp", .num timestamp)]

/-- `execute_job(entrypoint, request, timeout_ms)`, given the outcome of the
awaited turn body.  Returns the constructed `JobResult` together with the
value of `request.state` as observed by the caller after the call (Python
aliasing made explicit). -/
def execute_job (timeout_ms : Option Nat) (request : JobRequest)
    (outcome : TurnOutcome) (procMs : Nat) (timestamp : Int) :
    JobResult × SerializableSessionState :=
  match outcome with
  | .ok buffer captured =>
    let response_text := if buffer.isEmpty then none else some (String.intercalate " " buffer)
    match captured with
    | some agent =>
      let updated_state :=
        if agent.extract_raises then request.state
        else SerializableSessionState.from_chat_context agent.chat_ctx none
      ({ job_id := request.job_id
         status := .success
         response_text := response_text
         updated_state := some updated_state
         processing_time_ms := some procMs },
       request.state)
    | none =>
      let mutated : SerializableSessionState :=
        { request.state with
          metadata := dictSet request.state.metadata "last_turn"
            (lastTurnRecord request.user_input response_text timestamp) }
      ({ job_id := request.job_id
         status := .success
         response_text := response_text
         updated_state := some mutated
         processing_time_ms := some procMs },
       mutated)
  | .raised .timeoutErr =>
    ({ job_id := request.job_id
       status := .timeout
       error := some ("Job execution exceeded timeout of " ++ pyShowOptNat timeout_ms ++ "ms")
       processing_time_ms := some procMs },
     request.state)
  | .raised (.exn name msg) =>
    ({ job_id := request.job_id
       status := .error
       error := some (name ++ ": " ++ msg)
       processing_time_ms := some procMs },
     request.state)

/-- C2: `execute_job` always returns a `JobResult` (the embedding is total in
the turn outcome, so no exception reaches the caller): a timeout expiry yields
status `timeout`, and any other exception yields status `error` with the error
string `"<type name>: <message>"`, which carries the exception's type name and
message. -/
theorem C2_exception_classification :
    ∀ (tm : Option Nat) (req : JobRequest) (procMs : Nat) (ts : Int),
      (execute_job tm req (.raised .timeoutErr) procMs ts).1.status = Status.timeout
      ∧ ∀ (name msg : String),
          (execute_job tm req (.raised (.exn name msg)) procMs ts).1.status = Status.error
          ∧ (execute_job tm req (.raised (.exn name msg)) procMs ts).1.error
              = some (name ++ ": " ++ msg) :=
  fun _ _ _ _ => ⟨rfl, fun _ _ => ⟨rfl, rfl⟩⟩

/-- C3 counterexample: at a concrete timeout expiry, the result's status is
`timeout` and yet its error message field is present, so the error field is
not present only when the status is `error`. -/
theorem C3_counterexample :
    (execute_job (some 100)
        { job_id := "job-c3", user_input := "hi",
          state := { chat_items := [], metadata := [] }, timeout_ms := 30000 }
        (.raised .timeoutErr) 5 0).1.status = Status.timeout
    ∧ ((execute_job (some 100)
        { job_id := "job-c3", user_input := "hi",
          state := { chat_items := [], metadata := [] }, timeout_ms := 30000 }
        (.raised .timeoutErr) 5 0).1.error).isSome = true :=
  ⟨rfl, rfl⟩

/-- C3 (amended): every result of `execute_job` has exactly one of the three
statuses; a success result carries no error message and always carries an
updated state, a raised turn yields no response text and no updated state, and
the error message field is present on both `error` and `timeout` results
(absent exactly on `success`), with the status determined by the exception
classification. -/
theorem C3_field_discipline :
    ∀ (tm : Option Nat) (req : JobRequest) (procMs : Nat) (ts : Int),
      (∀ (buffer : List String) (captured : Option CapturedAgent),
        (execute_job tm req (.ok buffer captured) procMs ts).1.status = Status.success
        ∧ (execute_job tm req (.ok buffer captured) procMs ts).1.error = none
        ∧ ((execute_job tm req (.ok buffer captured) procMs ts).1.updated_state).isSome = true)
      ∧ (∀ e : PyExn,
        ((execute_job tm req (.raised e) procMs ts).1.error).isSome = true
        ∧ (execute_job tm req (.raised e) procMs ts).1.response_text = none
        ∧ (execute_job tm req (.raised e) procMs ts).1.updated_state = none
        ∧ (execute_job tm req (.raised e) procMs ts).1.status
            = (match e with | .timeoutErr => Status.timeout | .exn _ _ => Status.error)) := by
  intro tm req procMs ts
  constructor
  · intro buffer captured
    cases captured with
    | none => exact ⟨rfl, rfl, rfl⟩
    | some agent => exact ⟨rfl, rfl, rfl⟩
  · intro e
    cases e with
    | timeoutErr => exact ⟨rfl, rfl, rfl, rfl⟩
    | exn name msg => exact ⟨rfl, rfl, rfl, rfl⟩

/-- C4 counterexample: for a concrete successful turn with no captured agent
(the fallback path for simple agents), the request's state as observed after
the call is not the state that was passed in: `execute_job` mutated its
metadata in place by writing the `"last_turn"` record. -/
theorem C4_counterexample :
    (execute_job none
        { job_id := "job-c4", user_input := "hi",
          state := { chat_items := [], metadata := [] }, timeout_ms := 30000 }
        (.ok ["out"] none) 1 0).2
    ≠ { chat_items := [], metadata := [] } := by
  intro h
  have h2 := congrArg (fun s => s.metadata.length) h
  simp [execute_job, dictSet, lastTurnRecord] at h2

/-- C4 (amended): when the turn raises, or when a captured agent is available
(whether or not state extraction from its chat context succeeds), the input
state is left unchanged; but in the fallback path for simple agents without a
captured agent, `execute_job` mutates the input state in place, adding a
`"last_turn"` metadata record, and the result's `updated_state` is that same
mutated object rather than a fresh one. -/
theorem C4_state_mutation :
    ∀ (tm : Option Nat) (req : JobRequest) (procMs : Nat) (ts : Int),
      (∀ e : PyExn, (execute_job tm req (.raised e) procMs ts).2 = req.state)
      ∧ (∀ (buffer : List String) (agent : CapturedAgent),
          (execute_job tm req (.ok buffer (some agent)) procMs ts).2 = req.state)
      ∧ (∀ buffer : List String,
          (execute_job tm req (.ok buffer none) procMs ts).2
            = { req.state with
                metadata := dictSet req.state.metadata "last_turn"
                  (lastTurnRecord req.user_input
                    (if buffer.isEmpty then none else some (String.intercalate " " buffer)) ts) }
          ∧ (execute_job tm req (.ok buffer none) procMs ts).1.updated_state
              = some ((execute_job tm req (.ok buffer none) procMs ts).2)) := by
  intro tm req procMs ts
  refine ⟨fun e => ?_, fun buffer agent => rfl, fun buffer => ⟨rfl, rfl⟩⟩
  cases e with
  | timeoutErr => rfl
  | exn name msg => rfl

/-- C5: for a successful turn whose output buffer was produced by the
intercepted `publish_data` calls, the final response text is the captured
payloads joined in capture order with a single separating space, and an empty
buffer yields no response text while the status is still `success`. -/
theorem C5_response_join :
    ∀ (tm : Option Nat) (req : JobRequest) (procMs : Nat) (ts : Int)
      (publishes : List String) (captured : Option CapturedAgent),
      (execute_job tm req (.ok (bufferOfPublishes publishes) captured) procMs ts).1.response_text
        = (if publishes.isEmpty then none else some (String.intercalate " " publishes))
      ∧ (execute_job tm req (.ok (bufferOfPublishes publishes) captured) procMs ts).1.status
          = Status.success := by
  intro tm req procMs ts publishes captured
  have hbuf : bufferOfPublishes publishes = publishes := by
    show publishes.foldl capture_agent_output [] = publishes
    suffices h : ∀ acc : List String, publishes.foldl capture_agent_output acc = acc ++ publishes by
      simpa using h []
    induction publishes with
    | nil => intro acc; simp
    | cons x xs ih => intro acc; simp [capture_agent_output, ih]
  rw [hbuf]
  cases captured with
  | none => exact ⟨rfl, rfl⟩
  | some agent => exact ⟨rfl, rfl⟩

/-! ## src/livetxt/shim/context.py — FakeRoom event dispatch

A registered handler is embedded as an identity (so that an invocation trace
can be stated) together with what calling it does: return normally or raise an
exception with a message.  `_emit_event`'s `for` loop with its per-handler
`try`/`except` becomes a fold producing the invocation trace and the log of
caught errors. -/

/-- What calling a handler does. -/
inductive HandlerRun where
  | ok
  | raises (msg : String)
  deriving Repr

/-- A handler as registered with `FakeRoom.on`: an identity plus its
behavior when invoked (synchronous and asynchronous handlers are both awaited
in place by the loop, so the distinction is immaterial to dispatch order). -/
structure Handler where
  hid : Nat
  run : HandlerRun
  deriving Repr

/-- The event-handler registry `FakeRoom._event_handlers`: event name to the
ordered list of registered handlers. -/
abbrev EventRegistry := List (String × List Handler)

/-- The handler list for an event: `self._event_handlers.get(event, [])`. -/
def handlersFor : EventRegistry → String → List Handler
  | [], _ => []
  | p :: ps, event => if p.1 == event then p.2 else handlersFor ps event

/-- `FakeRoom._register_handler`: create the event's (empty) list if the key
is absent, then append the callback at the end of that list. -/
def register_handler : EventRegistry → String → Handler → EventRegistry
  | [], event, callback => [(event, [callback])]
  | p :: ps, event, callback =>
    if p.1 == event then (p.1, p.2 ++ [callback]) :: ps
    else p :: register_handler ps event callback

/-- One step of `_emit_event`'s loop: invoke the handler (recording it in the
trace); a raised exception is caught and logged, it does not escape the
loop. -/
def emitStep (acc : List Nat × List String) (h : Handler) : List Nat × List String :=
  (acc.1 ++ [h.hid],
   match h.run with
   | .ok => acc.2
   | .raises msg => acc.2 ++ [msg])

/-- `FakeRoom._emit_event(event)`: invoke every registered handler for the
event in order, catching and logging exceptions.  Returns the invocation
trace and the error log. -/
def emit_event (registry : EventRegistry) (event : String) : List Nat × List String :=
  (handlersFor registry event).foldl emitStep ([], [])

/-- Registering then emitting: the appended handler is invoked last. -/
theorem handlersFor_register (registry : EventRegistry) (event : String) (h : Handler) :
    handlersFor (register_handler registry event h) event = handlersFor registry event ++ [h] := by
  induction registry with
  | nil => simp [handlersFor, register_handler]
  | cons p ps ih =>
    by_cases hp : p.1 == event
    · simp [handlersFor, register_handler, hp]
    · simp [handlersFor, register_handler, hp, ih]

/-- The fold underlying `emit_event`, with its accumulators exposed. -/
theorem emitStep_foldl (hs : List Handler) :
    ∀ (trace : List Nat) (lg : List String),
      hs.foldl emitStep (trace, lg)
        = (trace ++ hs.map Handler.hid,
           lg ++ (hs.filterMap (fun h =>
             match h.run with | .ok => none | .raises m => some m))) := by
  induction hs with
  | nil => intro trace lg; simp
  | cons h t ih =>
    intro trace lg
    cases hrun : h.run with
    | ok => simp [emitStep, hrun, ih]
    | raises m => simp [emitStep, hrun, ih]

/-- C6: emitting an event invokes all handlers registered for it, in
registration order (the invocation trace is exactly the registered list, and a
newly registered handler is appended at the end), and a handler that raises is
caught and logged without preventing the invocation of the subsequent
handlers: the trace covers every handler whatever each one's behavior is, and
the log collects exactly the raised messages in order. -/
theorem C6_event_dispatch :
    ∀ (registry : EventRegistry) (event : String),
      (emit_event registry event).1 = (handlersFor registry event).map Handler.hid
      ∧ (emit_event registry event).2
          = (handlersFor registry event).filterMap (fun h =>
              match h.run with | .ok => none | .raises m => some m)
      ∧ ∀ h : Handler,
          handlersFor (register_handler registry event h) event
            = handlersFor registry event ++ [h] := by
  intro registry event
  refine ⟨?_, ?_, fun h => handlersFor_register registry event h⟩
  · show ((handlersFor registry event).foldl emitStep ([], [])).1 = _
    rw [emitStep_foldl]
    simp
  · show ((handlersFor registry event).foldl emitStep ([], [])).2 = _
    rw [emitStep_foldl]
    simp

/-! ## src/livetxt/shim/patch.py and src/livetxt/shim/auto_patch.py — patch
installation

Each module guards its installation routine with a module-level
`_PATCHING_APPLIED` flag.  The observable effect of an installation is
embedded as wrap counters: how many times the target constructor, property or
session class has been wrapped.  Whether the host framework imports is an
input (on `ImportError`, and on any installation exception, the routine logs
and still marks the patch applied). -/

/-- Module state of `livetxt.shim.patch`: the applied flag and how many
wrapper layers sit on `agents.AgentSession`. -/
structure PatchState where
  applied : Bool
  sessionWrapDepth : Nat
  deriving Repr, DecidableEq

/-- `patch_livekit()`: skip when already applied; otherwise replace
`agents.AgentSession` with the SMS wrapper class and mark applied (marked
applied even when the host framework is absent). -/
def patch_livekit (livekitAvailable : Bool) (s : PatchState) : PatchState :=
  if s.applied then s
  else if livekitAvailable then { applied := true, sessionWrapDepth := s.sessionWrapDepth + 1 }
  else { s with applied := true }

/-- Module state of `livetxt.shim.auto_patch`: the applied flag and how many
wrapper layers sit on `Agent.__init__` and on the `chat_ctx` property. -/
structure AutoPatchState where
  applied : Bool
  initWrapDepth : Nat
  chatCtxWrapDepth : Nat
  deriving Repr, DecidableEq

/-- `patch_livekit_auto()`: skip when already applied; otherwise wrap
`Agent.__init__` and the `chat_ctx` property and mark applied (marked applied
even when the host framework is absent or wrapping fails). -/
def patch_livekit_auto (livekitAvailable : Bool) (s : AutoPatchState) : AutoPatchState :=
  if s.applied then s
  else if livekitAvailable then
    { applied := true,
      initWrapDepth := s.initWrapDepth + 1,
      chatCtxWrapDepth := s.chatCtxWrapDepth + 1 }
  else { s with applied := true }

/-- C7: both patch installation routines are idempotent: a second invocation
(whatever the host framework's availability then) is detected by the applied
flag and skipped, leaving the module state of a single invocation, so from a
fresh process the wrap depths after two invocations equal those after one (no
double-wrapping of the patched constructor, property, or session class). -/
theorem C7_patch_idempotent :
    ∀ (a b : Bool) (s : PatchState) (t : AutoPatchState),
      patch_livekit b (patch_livekit a s) = patch_livekit a s
      ∧ patch_livekit_auto b (patch_livekit_auto a t) = patch_livekit_auto a t := by
  intro a b s t
  constructor
  · unfold patch_livekit
    by_cases hs : s.applied
    · simp [hs]
    · cases a <;> simp [hs]
  · unfold patch_livekit_auto
    by_cases ht : t.applied
    · simp [ht]
    · cases a <;> simp [ht]

/-! ## src/livetxt/shim/auto_patch.py — the process-wide captured-state map

`_AGENT_STATES` maps an agent's identity (`id(agent)`, embedded as a `Nat`)
to its captured-state record.  The module's accessors are embedded as
explicit state passing: `get_agent_state` returns its value together with the
map as it stands after the call (a Python `dict.get` is a pure read),
`clear_agent_state` and `_auto_capture_state` return the updated map. -/

/-- A captured-state record: serialized chat context (or `None`), the
function-call log, and the coarse lifecycle labels. -/
structure AgentStateRecord where
  chat_context : Option (List (String × Json))
  function_calls : List Json
  user_state : String
  agent_state : String
  deriving Repr

/-- The default-empty record returned for an unknown agent identity. -/
def defaultAgentState : AgentStateRecord :=
  { chat_context := none
    function_calls := []
    user_state := "listening"
    agent_state := "idle" }

/-- The `_AGENT_STATES` map. -/
abbrev AgentStates := List (Nat × AgentStateRecord)

/-- Lookup of an agent identity in `_AGENT_STATES`. -/
def agentStatesLookup : AgentStates → Nat → Option AgentStateRecord
  | [], _ => none
  | p :: ps, aid => if p.1 == aid then some p.2 else agentStatesLookup ps aid

/-- `get_agent_state(agent)`: `_AGENT_STATES.get(id(agent), default record)`;
the map itself is returned unchanged (`dict.get` neither inserts nor
removes). -/
def get_agent_state (m : AgentStates) (aid : Nat) : AgentStateRecord × AgentStates :=
  ((agentStatesLookup m aid).getD defaultAgentState, m)

/-- `clear_agent_state(agent)`: delete the identity's entry when present. -/
def clear_agent_state (m : AgentStates) (aid : Nat) : AgentStates :=
  m.filter (fun p => !(p.1 == aid))

/-- `_auto_capture_state(agent)`: store the captured record under the agent's
identity (replacing any previous entry). -/
def auto_capture_state (m : AgentStates) (aid : Nat) (st : AgentStateRecord) : AgentStates :=
  if m.any (fun p => p.1 == aid) then
    m.map (fun p => if p.1 == aid then (aid, st) else p)
  else
    m ++ [(aid, st)]

/-- C8: after `clear_agent_state`, the identity has no entry in the
process-wide map, and a subsequent `get_agent_state` for that identity
returns the default-empty record (chat context `None`, no function calls,
user state `"listening"`, agent state `"idle"`), not the previously captured
state. -/
theorem C8_clear_agent_state :
    ∀ (m : AgentStates) (aid : Nat),
      agentStatesLookup (clear_agent_state m aid) aid = none
      ∧ (get_agent_state (clear_agent_state m aid) aid).1 = defaultAgentState := by
  intro m aid
  have hlook : agentStatesLookup (clear_agent_state m aid) aid = none := by
    induction m with
    | nil => rfl
    | cons p ps ih =>
      by_cases hp : p.1 == aid
      · simpa [clear_agent_state, hp] using ih
      · simpa [clear_agent_state, agentStatesLookup, hp] using ih
  exact ⟨hlook, by simp [get_agent_state, hlook]⟩

/-- C10: `get_agent_state` is read-only with respect to the process-wide map:
the map after the call is the map before it (so repeated reads never grow
it), and an identity with no captured entry yields the default-empty record
without an entry being inserted. -/
theorem C10_get_agent_state_readonly :
    ∀ (m : AgentStates) (aid : Nat),
      (get_agent_state m aid).2 = m
      ∧ (agentStatesLookup m aid = none →
          (get_agent_state m aid).1 = defaultAgentState
          ∧ (get_agent_state m aid).2 = m) := by
  intro m aid
  exact ⟨rfl, fun hnone => ⟨by simp [get_agent_state, hnone], rfl⟩⟩

/-! ## json.loads and src/livetxt/serialization.py tool-call encoding

`serialize_function_tool_call` branches on what `json.loads` returns for the
call's embedded arguments string, so the embedding carries an executable model
of `json.loads`: a recursive-descent JSON reader over the character list,
with recursion bounded by fuel (amply larger than the input).  The modelled
subset covers null, booleans, integer numbers, strings with the single-letter
escape sequences, arrays and objects; JSON floats and `\u` escapes are left
outside the embedding (a string using them is not `loads`-parseable in the
model), which none of the statements below depend on. -/

/-- JSON whitespace as skipped by `json.loads`. -/
def isJsonWs (c : Char) : Bool :=
  c == ' ' || c == '\t' || c == '\n' || c == '\r'

def skipWs : List Char → List Char
  | [] => []
  | c :: cs => if isJsonWs c then skipWs cs else c :: cs

/-- The body of a JSON string after its opening quote: the decoded characters
and the remainder after the closing quote. -/
def readStrChars : List Char → Option (List Char × List Char)
  | [] => none
  | c :: cs =>
    if c = '"' then some ([], cs)
    else if c = '\\' then
      match cs with
      | [] => none
      | e :: cs2 =>
        let dec : Option Char :=
          if e = '"' then some '"'
          else if e = '\\' then some '\\'
          else if e = '/' then some '/'
          else if e = 'n' then some '\n'
          else if e = 't' then some '\t'
          else if e = 'r' then some '\r'
          else if e = 'b' then some (Char.ofNat 8)
          else if e = 'f' then some (Char.ofNat 12)
          else none
        match dec with
        | some d => (readStrChars cs2).map (fun p => (d :: p.1, p.2))
        | none => none
    else (readStrChars cs).map (fun p => (c :: p.1, p.2))

/-- Leading decimal digits and the remainder. -/
def takeDigits : List Char → List Char × List Char
  | [] => ([], [])
  | c :: cs =>
    if c.isDigit then
      let p := takeDigits cs
      (c :: p.1, p.2)
    else ([], c :: cs)

def digitsVal (ds : List Char) : Nat :=
  ds.foldl (fun n c => n * 10 + (c.toNat - 48)) 0

/-- A JSON integer token (optional minus sign, digits); a following `.`, `e`
or `E` (a float) is outside the modelled subset and fails. -/
def readIntTok (input : List Char) : Option (Int × List Char) :=
  let signSplit : Bool × List Char :=
    match input with
    | c :: cs => if c = '-' then (true, cs) else (false, input)
    | [] => (false, [])
  match takeDigits signSplit.2 with
  | ([], _) => none
  | (ds, rest) =>
    let chk : Bool :=
      match rest with
      | c :: _ => c = '.' || c = 'e' || c = 'E'
      | [] => false
    if chk then none
    else
      let n : Int := Int.ofNat (digitsVal ds)
      some (if signSplit.1 then -n else n, rest)

/-- What a recursive-descent step is reading: one value, the items of an
array, or the fields of an object. -/
inductive ReadMode where
  | val
  | items
  | fields

/-- The result of a step in each mode. -/
inductive ReadOut where
  | val (v : Json)
  | items (xs : List Json)
  | fields (fs : List (String × Json))

/-- The recursive-descent reader, fuel-bounded (structural on the fuel so
closed applications evaluate): in `val` mode one JSON value, in `items` mode
comma-separated array items up to the closing bracket, in `fields` mode
comma-separated `"key": value` fields up to the closing brace. -/
def readCore : Nat → ReadMode → List Char → Option (ReadOut × List Char)
  | 0, _, _ => none
  | fuel + 1, .val, input =>
    match skipWs input with
    | [] => none
    | c :: cs =>
      if c = 'n' then
        match cs with
        | 'u' :: 'l' :: 'l' :: rest => some (.val Json.null, rest)
        | _ => none
      else if c = 't' then
        match cs with
        | 'r' :: 'u' :: 'e' :: rest => some (.val (Json.bool true), rest)
        | _ => none
      else if c = 'f' then
        match cs with
        | 'a' :: 'l' :: 's' :: 'e' :: rest => some (.val (Json.bool false), rest)
        | _ => none
      else if c = '"' then
        match readStrChars cs with
        | some (sChars, rest) => some (.val (Json.str (String.mk sChars)), rest)
        | none => none
      else if c = '[' then
        match skipWs cs with
        | ']' :: rest => some (.val (Json.arr []), rest)
        | _ =>
          match readCore fuel .items cs with
          | some (.items xs, rest) => some (.val (Json.arr xs), rest)
          | _ => none
      else if c = '{' then
        match skipWs cs with
        | '}' :: rest => some (.val (Json.obj []), rest)
        | _ =>
          match readCore fuel .fields cs with
          | some (.fields fs, rest) => some (.val (Json.obj fs), rest)
          | _ => none
      else
        match readIntTok (c :: cs) with
        | some (n, rest) => some (.val (Json.num n), rest)
        | none => none
  | fuel + 1, .items, input =>
    match readCore fuel .val input with
    | some (.val v, rest) =>
      (match skipWs rest with
       | ',' :: rest2 =>
         match readCore fuel .items rest2 with
         | some (.items xs, rest3) => some (.items (v :: xs), rest3)
         | _ => none
       | ']' :: rest2 => some (.items [v], rest2)
       | _ => none)
    | _ => none
  | fuel + 1, .fields, input =>
    match skipWs input with
    | '"' :: cs =>
      (match readStrChars cs with
       | none => none
       | some (kChars, rest) =>
         match skipWs rest with
         | ':' :: rest2 =>
           (match readCore fuel .val rest2 with
            | some (.val v, rest3) =>
              (match skipWs rest3 with
               | ',' :: rest4 =>
                 (match readCore fuel .fields rest4 with
                  | some (.fields fs, rest5) => some (.fields ((String.mk kChars, v) :: fs), rest5)
                  | _ => none)
               | '}' :: rest4 => some (.fields [(String.mk kChars, v)], rest4)
               | _ => none)
            | _ => none)
         | _ => none)
    | _ => none

/-- One JSON value and the remainder, fuel-bounded. -/
def readVal (fuel : Nat) (input : List Char) : Option (Json × List Char) :=
  match readCore fuel .val input with
  | some (.val v, rest) => some (v, rest)
  | _ => none

/-- `json.loads(s)`: parse one JSON document, requiring only whitespace after
it; `none` embeds a raised `json.JSONDecodeError`. -/
def jsonLoads (s : String) : Option Json :=
  match readVal (s.length + 2) s.toList with
  | some (v, rest) => if (skipWs rest).isEmpty then some v else none
  | none => none

/-- `llm.FunctionToolCall` of the host framework: the arguments are stored as
an embedded JSON string. -/
structure FunctionToolCall where
  call_id : String
  name : String
  arguments : String
  deriving Repr

/-- `serialize_function_tool_call(call)`: parse the embedded arguments string
(`{"_raw": original}` when parsing raises) and emit the record. -/
def serialize_function_tool_call (call : FunctionToolCall) : List (String × Json) :=
  let argumentsObj : Json :=
    match jsonLoads call.arguments with
    | some v => v
    | none => Json.obj [("_raw", Json.str call.arguments)]
  [("call_id", Json.str call.call_id),
   ("name", Json.str call.name),
   ("arguments", argumentsObj)]

/-- C9 counterexample: the call whose stored arguments string is the JSON
document `"hello"` (a valid embedded JSON string that parses to a string, not
to an object) is encoded with its `arguments` value equal to the raw string
`"hello"`, which is not a JSON object — so an encoded tool-call record can
carry its arguments as a raw string. -/
theorem C9_counterexample :
    dictGet (serialize_function_tool_call
        { call_id := "call-1", name := "echo", arguments := "\"hello\"" }) "arguments"
      = some (Json.str "hello")
    ∧ (Json.str "hello").isObj = false :=
  ⟨rfl, rfl⟩

/-- C9 (amended): the encoded `arguments` value is the JSON value parsed from
the embedded arguments string when parsing succeeds — an object exactly when
that string encodes an object, and otherwise the parsed non-object value
as-is — and is the object `{"_raw": original}` when parsing raises. -/
theorem C9_arguments_normalization :
    ∀ call : FunctionToolCall,
      (jsonLoads call.arguments = none →
        dictGet (serialize_function_tool_call call) "arguments"
          = some (Json.obj [("_raw", Json.str call.arguments)]))
      ∧ (∀ v : Json, jsonLoads call.arguments = some v →
          dictGet (serialize_function_tool_call call) "arguments" = some v) := by
  intro call
  constructor
  · intro hnone
    simp [serialize_function_tool_call, dictGet, hnone]
  · intro v hv
    simp [serialize_function_tool_call, dictGet, hv]

end Livetxt
